import Mathlib

/-!
Verification of the feedback example (examples/feedback.rs): a bounded
SPSC sample channel bridging a capture callback and a playback callback,
with latency padding computed from a requested delay in milliseconds.

Samples are 32-bit floats in the source; they are only moved, never
combined arithmetically, so they are modelled as rationals.  The latency
arithmetic (lines 112-113 of feedback.rs) is performed in `f32` in the
source; it is modelled in exact rational arithmetic, and every concrete
instance proved below has been checked to yield the same truncated
integer under `f32` rounding.
-/

set_option autoImplicit false

namespace Feedback

/-- Modelled from the spec: the bounded single-producer single-consumer
sample channel (`ringbuf::HeapRb`, external to this repository, specified
in section 4.1 of the spec).  State is the FIFO sequence of queued
samples together with the fixed capacity set at construction. -/
structure Chan where
  capacity : Nat
  buf : List ℚ
  deriving DecidableEq

/-- Modelled from the spec: `try_push` enqueues one sample at the tail,
failing (result `none`, the `Full` error) when the channel already holds
`capacity` samples; a failed push changes nothing. -/
def Chan.tryPush (c : Chan) (x : ℚ) : Option Chan :=
  if c.buf.length < c.capacity then some ⟨c.capacity, c.buf ++ [x]⟩ else none

/-- Modelled from the spec: `try_pop` dequeues the oldest sample, returning
`none` on an empty channel and leaving it unchanged in that case. -/
def Chan.tryPop (c : Chan) : Option ℚ × Chan :=
  match c.buf with
  | [] => (none, c)
  | x :: rest => (some x, ⟨c.capacity, rest⟩)

/-- Occupancy test: the channel is full when it holds `capacity` samples. -/
def Chan.isFull (c : Chan) : Bool :=
  c.capacity ≤ c.buf.length

/-- Rust `as usize` applied to an `f32` (feedback.rs line 113): truncation
toward zero, saturating at 0 for negative inputs.  On the non-negative
branch truncation toward zero is the floor, computed as `num / den`. -/
def asUsize (x : ℚ) : Nat :=
  if x < 0 then 0 else x.num.toNat / x.den

/-- Line 112: `let latency_frames = (opt.latency / 1_000.0) * config.sample_rate.0 as f32`. -/
def latencyFrames (latency : ℚ) (sampleRate : Nat) : ℚ :=
  latency / 1000 * (sampleRate : ℚ)

/-- Line 113: `let latency_samples = latency_frames as usize * config.channels as usize`. -/
def latencySamples (latency : ℚ) (sampleRate channels : Nat) : Nat :=
  asUsize (latencyFrames latency sampleRate) * channels

/-- Line 116: the channel is constructed with `latency_samples * 2` capacity. -/
def chanCapacity (latency : ℚ) (sampleRate channels : Nat) : Nat :=
  latencySamples latency sampleRate channels * 2

/-- Lines 120-124: push `n` zero samples one at a time; `none` models the
`unwrap` panic on the error branch of a failed pre-fill push. -/
def prefill (c : Chan) : Nat → Option Chan
  | 0 => some c
  | n + 1 =>
    match c.tryPush 0 with
    | some c2 => prefill c2 n
    | none => none

/-- The setup path of `main` after stream-configuration negotiation
(lines 112-124): compute the latency padding, build the channel with
double that capacity, and pre-fill it with zero samples.  The source
performs no validation of the requested latency on this path. -/
structure Setup where
  samples : Nat
  chan : Chan
  deriving DecidableEq

def setup (latency : ℚ) (sampleRate channels : Nat) : Option Setup :=
  let n := latencySamples latency sampleRate channels
  match prefill ⟨n * 2, []⟩ n with
  | some c => some ⟨n, c⟩
  | none => none

/-- Lines 134-139 of the capture callback: push every sample of the
incoming block, setting the fell-behind flag when any push fails; a
failed push leaves the channel as it was and the loop continues. -/
def pushBlock (c : Chan) : List ℚ → Chan × Bool
  | [] => (c, false)
  | x :: xs =>
    match c.tryPush x with
    | some c2 => pushBlock c2 xs
    | none => ((pushBlock c xs).1, true)

/-- Lines 153-162 of the playback callback: fill each of the `n` slots of
the output block with a popped sample, substituting the zero sample and
setting the fell-behind flag when the pop fails. -/
def fillBlock (c : Chan) : Nat → List ℚ × Chan × Bool
  | 0 => ([], c, false)
  | n + 1 =>
    match c.tryPop with
    | (some s, c2) =>
      let r := fillBlock c2 n
      (s :: r.1, r.2.1, r.2.2)
    | (none, c2) =>
      let r := fillBlock c2 n
      (0 :: r.1, r.2.1, true)

/-- Timing telemetry of one callback side (lines 126-133 and 145-152):
the previous-invocation timestamp cell and the append-only ledger of
inter-invocation intervals.  Wall-clock instants are modelled as
naturals; `elapsed` is truncated subtraction, faithful for a monotone
clock. -/
structure TimingState where
  prevInstant : Option Nat
  ledger : List Nat
  deriving DecidableEq

/-- One invocation's bookkeeping at time `now`: if a previous timestamp
exists, append `now - previous` to the ledger; then record `now`. -/
def recordInvocation (s : TimingState) (now : Nat) : TimingState :=
  { prevInstant := some now
    ledger :=
      match s.prevInstant with
      | some p => s.ledger ++ [now - p]
      | none => s.ledger }

/-- A run of callback invocations at the given sequence of times. -/
def runInvocations (s : TimingState) : List Nat → TimingState
  | [] => s
  | t :: ts => runInvocations (recordInvocation s t) ts

/-- Rust `Duration::div` by a `u32` count (lines 198-205): the division
panics when the count is zero, modelled as `none`. -/
def durationDiv (sum count : Nat) : Option Nat :=
  if count = 0 then none else some (sum / count)

/-- Lines 192-205 for one side: reduce a ledger to its mean
inter-invocation interval by dividing the sum by the length. -/
def reportMean (ledger : List Nat) : Option Nat :=
  durationDiv ledger.sum ledger.length

theorem asUsize_natCast (n : ℕ) : asUsize (n : ℚ) = n := by
  simp [asUsize, Rat.num_natCast, Rat.den_natCast]

theorem asUsize_nonpos (x : ℚ) (h : x ≤ 0) : asUsize x = 0 := by
  unfold asUsize
  split
  · rfl
  · rename_i h2
    have hx : x = 0 := le_antisymm h (not_lt.mp h2)
    subst hx
    simp

theorem pushBlock_ok (xs : List ℚ) (c : Chan)
    (h : c.buf.length + xs.length ≤ c.capacity) :
    pushBlock c xs = (⟨c.capacity, c.buf ++ xs⟩, false) := by
  induction xs generalizing c with
  | nil => simp [pushBlock]
  | cons x xs ih =>
    have hlt : c.buf.length < c.capacity := by
      simp only [List.length_cons] at h
      omega
    have hstep : c.tryPush x = some ⟨c.capacity, c.buf ++ [x]⟩ := by
      simp [Chan.tryPush, hlt]
    have hrec := ih ⟨c.capacity, c.buf ++ [x]⟩ (by simp at h ⊢; omega)
    simp [pushBlock, hstep, hrec]

theorem prefill_ok (n : Nat) (c : Chan)
    (h : c.buf.length + n ≤ c.capacity) :
    prefill c n = some ⟨c.capacity, c.buf ++ List.replicate n 0⟩ := by
  induction n generalizing c with
  | zero => simp [prefill]
  | succ n ih =>
    have hlt : c.buf.length < c.capacity := by omega
    have hstep : c.tryPush 0 = some ⟨c.capacity, c.buf ++ [0]⟩ := by
      simp [Chan.tryPush, hlt]
    have hrec := ih ⟨c.capacity, c.buf ++ [0]⟩ (by simp; omega)
    simp [prefill, hstep, hrec, List.replicate_succ]

theorem fillBlock_eq (n : Nat) (c : Chan) :
    fillBlock c n =
      (c.buf.take n ++ List.replicate (n - c.buf.length) 0,
       ⟨c.capacity, c.buf.drop n⟩,
       decide (c.buf.length < n)) := by
  induction n generalizing c with
  | zero => simp [fillBlock]
  | succ n ih =>
    obtain ⟨cap, buf⟩ := c
    cases buf with
    | nil =>
      simp [fillBlock, Chan.tryPop, ih ⟨cap, []⟩, List.replicate_succ]
    | cons x rest =>
      simp [fillBlock, Chan.tryPop, ih ⟨cap, rest⟩, Nat.succ_sub_succ,
        Nat.succ_lt_succ_iff]

theorem run_some_ledger (ts : List Nat) (p : Nat) (l : List Nat) :
    (runInvocations ⟨some p, l⟩ ts).ledger.length = l.length + ts.length := by
  induction ts generalizing p l with
  | nil => simp [runInvocations]
  | cons t ts ih =>
    simp [runInvocations, recordInvocation, ih]
    omega


theorem latencyFrames_nonpos (lat : ℚ) (sr : Nat) (h : lat < 0) :
    latencyFrames lat sr ≤ 0 := by
  unfold latencyFrames
  have h1 : lat / 1000 ≤ 0 := le_of_lt (div_neg_of_neg_of_pos h (by norm_num))
  have h2 : (0 : ℚ) ≤ (sr : ℚ) := Nat.cast_nonneg sr
  nlinarith

theorem latencySamples_neg (lat : ℚ) (sr ch : Nat) (h : lat < 0) :
    latencySamples lat sr ch = 0 := by
  unfold latencySamples
  rw [asUsize_nonpos _ (latencyFrames_nonpos lat sr h)]
  simp

/-- Claim C1: the claim states that reducing the timing ledgers into mean
intervals at report time never divides by zero on a session with fewer
than two invocations of an entry point.  The code divides the ledger sum
by the ledger length unconditionally, and after at most one invocation
the ledger is empty, so the report reaches the division-by-zero branch
(a `Duration` division panic in the source), modelled as `none`. -/
theorem report_divides_by_zero_on_short_session :
    reportMean [] = none
    ∧ (∀ t : Nat, reportMean (runInvocations ⟨none, []⟩ [t]).ledger = none) := by
  exact ⟨rfl, fun t => rfl⟩

/-- Claim C2 (amended): for every requested latency strictly below zero
the setup path signals no configuration error at all; the conversion
saturates, the channel is built with capacity 0, and setup completes
successfully, proceeding to stream construction. -/
theorem setup_negative_latency_proceeds (lat : ℚ) (sr ch : Nat) (h : lat < 0) :
    (setup lat sr ch).isSome = true := by
  simp [setup, latencySamples_neg lat sr ch h, prefill]

/-- Claim C2, counterexample: at the concrete negative latency -150 the
setup path completes successfully (capacity-0 channel, no pre-fill)
instead of signalling a configuration error. -/
theorem setup_negative_latency_no_error_cex :
    setup (-150) 48000 2 = some ⟨0, ⟨0, []⟩⟩ := by
  simp [setup, latencySamples_neg (-150) 48000 2 (by norm_num), prefill]

theorem setup_negative_latency_proceeds_witness :
    (setup (-1) 48000 2).isSome = true :=
  setup_negative_latency_proceeds (-1) 48000 2 (by norm_num)

/-- Claim C3: for every non-negative latency the pre-fill of
`latency_samples` zeros into the channel of capacity
`2 * latency_samples` succeeds on every push: setup never reaches the
error branch of the pre-fill `unwrap`. -/
theorem prefill_always_succeeds (lat : ℚ) (sr ch : Nat) (h : 0 ≤ lat) :
    setup lat sr ch =
      some ⟨latencySamples lat sr ch,
            ⟨latencySamples lat sr ch * 2,
             List.replicate (latencySamples lat sr ch) 0⟩⟩ := by
  have hp := prefill_ok (latencySamples lat sr ch)
      ⟨latencySamples lat sr ch * 2, []⟩ (by simp; omega)
  simp [setup, hp]

theorem prefill_always_succeeds_witness :
    setup 1 2000 1 = some ⟨2, ⟨4, List.replicate 2 0⟩⟩ := by
  have h2 : latencySamples 1 2000 1 = 2 := by
    have hf : latencyFrames 1 2000 = ((2 : ℕ) : ℚ) := by norm_num [latencyFrames]
    unfold latencySamples
    rw [hf, asUsize_natCast]
  rw [prefill_always_succeeds 1 2000 1 (by norm_num), h2]

/-- Claim C4: for every channel state and every output block length, the
playback entry point fully populates the block: the result has exactly
the requested length, equals the popped prefix of the channel followed
by zero padding, and every slot holds either a value that was in the
channel or the zero sample. -/
theorem output_block_fully_populated (c : Chan) (n : Nat) :
    (fillBlock c n).1.length = n
    ∧ (fillBlock c n).1 = c.buf.take n ++ List.replicate (n - c.buf.length) 0
    ∧ ∀ x ∈ (fillBlock c n).1, x ∈ c.buf ∨ x = 0 := by
  have h := fillBlock_eq n c
  refine ⟨?_, ?_, ?_⟩
  · rw [h]
    simp [List.length_take]
    omega
  · rw [h]
  · intro x hx
    rw [h] at hx
    rcases List.mem_append.mp hx with h1 | h2
    · exact Or.inl (List.take_subset _ _ h1)
    · exact Or.inr (List.eq_of_mem_replicate h2)

/-- Claim C5: the latency padding satisfies
`latency_samples = trunc(latency / 1000 * sample_rate) * channels`, and
at latency 150 ms, rate 48000, 2 channels the padding is 14400 samples
with channel capacity 28800. -/
theorem latency_padding_computation :
    (∀ (lat : ℚ) (sr ch : Nat),
        latencySamples lat sr ch = asUsize (lat / 1000 * (sr : ℚ)) * ch)
    ∧ latencySamples 150 48000 2 = 14400
    ∧ chanCapacity 150 48000 2 = 28800 := by
  have hf : latencyFrames 150 48000 = ((7200 : ℕ) : ℚ) := by
    norm_num [latencyFrames]
  have hs : latencySamples 150 48000 2 = 14400 := by
    unfold latencySamples
    rw [hf, asUsize_natCast]
  refine ⟨fun lat sr ch => rfl, hs, ?_⟩
  rw [chanCapacity, hs]

/-- Claim C6: for every capacity and every block of at most that many
samples pushed into an empty channel with no interleaved pops, all
pushes succeed and the following pops return exactly the pushed values
in order, leaving the channel empty. -/
theorem fifo_round_trip (C : Nat) (xs : List ℚ) (h : xs.length ≤ C) :
    pushBlock ⟨C, []⟩ xs = (⟨C, xs⟩, false)
    ∧ fillBlock ⟨C, xs⟩ xs.length = (xs, ⟨C, []⟩, false) := by
  constructor
  · have hp := pushBlock_ok xs ⟨C, []⟩ (by simpa using h)
    simpa using hp
  · rw [fillBlock_eq]
    simp

theorem fifo_round_trip_witness :
    pushBlock ⟨3, []⟩ [1, 2, 3] = (⟨3, [1, 2, 3]⟩, false)
    ∧ fillBlock ⟨3, [1, 2, 3]⟩ 3 = ([1, 2, 3], ⟨3, []⟩, false) :=
  fifo_round_trip 3 [1, 2, 3] (by decide)

/-- Claim C7: after filling a channel to capacity, a further push fails
with `Full`, and the failed push leaves the channel contents exactly
unchanged while only setting the fell-behind flag. -/
theorem push_full_fails_unchanged (C : Nat) (xs : List ℚ) (y : ℚ)
    (h : xs.length = C) :
    pushBlock ⟨C, []⟩ xs = (⟨C, xs⟩, false)
    ∧ Chan.tryPush ⟨C, xs⟩ y = none
    ∧ pushBlock ⟨C, xs⟩ [y] = (⟨C, xs⟩, true) := by
  refine ⟨?_, ?_, ?_⟩
  · have hp := pushBlock_ok xs ⟨C, []⟩ (by simp [h])
    simpa using hp
  · simp [Chan.tryPush, h]
  · simp [pushBlock, Chan.tryPush, h]

theorem push_full_fails_unchanged_witness :
    pushBlock ⟨2, []⟩ [4, 5] = (⟨2, [4, 5]⟩, false)
    ∧ Chan.tryPush ⟨2, [4, 5]⟩ 6 = none
    ∧ pushBlock ⟨2, [4, 5]⟩ [6] = (⟨2, [4, 5]⟩, true) :=
  push_full_fails_unchanged 2 [4, 5] 6 (by decide)

/-- Claim C8: immediately after pre-filling `n` zeros into an empty
channel of capacity at least `n`, the first `n` pops all return the zero
sample (leaving the channel empty), and the channel is not full whenever
`n` is strictly below the capacity. -/
theorem prefilled_pops_zero_and_not_full (n C : Nat) (h : n ≤ C) :
    prefill ⟨C, []⟩ n = some ⟨C, List.replicate n 0⟩
    ∧ fillBlock ⟨C, List.replicate n 0⟩ n = (List.replicate n 0, ⟨C, []⟩, false)
    ∧ (n < C → Chan.isFull ⟨C, List.replicate n 0⟩ = false) := by
  refine ⟨?_, ?_, ?_⟩
  · have hp := prefill_ok n ⟨C, []⟩ (by simp [h])
    simpa using hp
  · rw [fillBlock_eq]
    simp
  · intro hlt
    simp [Chan.isFull]
    omega

theorem prefilled_pops_zero_and_not_full_witness :
    prefill ⟨2, []⟩ 1 = some ⟨2, List.replicate 1 0⟩
    ∧ fillBlock ⟨2, List.replicate 1 0⟩ 1 = (List.replicate 1 0, ⟨2, []⟩, false)
    ∧ (1 < 2 → Chan.isFull ⟨2, List.replicate 1 0⟩ = false) :=
  prefilled_pops_zero_and_not_full 1 2 (by decide)

/-- Claim C9: each invocation of an entry point updates the
previous-timestamp cell to the current time, and after a run of `n`
invocations starting from the initial absent timestamp the ledger holds
exactly `n - 1` inter-invocation intervals. -/
theorem ledger_length_and_timestamp :
    (∀ (s : TimingState) (t : Nat), (recordInvocation s t).prevInstant = some t)
    ∧ (∀ ts : List Nat, (runInvocations ⟨none, []⟩ ts).ledger.length = ts.length - 1) := by
  constructor
  · intro s t
    rfl
  · intro ts
    cases ts with
    | nil => rfl
    | cons t ts =>
      show (runInvocations (recordInvocation ⟨none, []⟩ t) ts).ledger.length = _
      have hr : recordInvocation ⟨none, []⟩ t = ⟨some t, []⟩ := rfl
      rw [hr, run_some_ledger]
      simp

/-- Claim C10: for every latency strictly below zero the float-to-usize
conversion saturates to 0, so the padding sample count is 0, the channel
is constructed with capacity 0, and the setup path raises no error. -/
theorem negative_latency_saturates (lat : ℚ) (sr ch : Nat) (h : lat < 0) :
    asUsize (latencyFrames lat sr) = 0
    ∧ latencySamples lat sr ch = 0
    ∧ setup lat sr ch = some ⟨0, ⟨0, []⟩⟩ := by
  have hA : asUsize (latencyFrames lat sr) = 0 :=
    asUsize_nonpos _ (latencyFrames_nonpos lat sr h)
  have hS : latencySamples lat sr ch = 0 := latencySamples_neg lat sr ch h
  refine ⟨hA, hS, ?_⟩
  simp [setup, hS, prefill]

theorem negative_latency_saturates_witness :
    asUsize (latencyFrames (-2) 48000) = 0
    ∧ latencySamples (-2) 48000 2 = 0
    ∧ setup (-2) 48000 2 = some ⟨0, ⟨0, []⟩⟩ :=
  negative_latency_saturates (-2) 48000 2 (by norm_num)


end Feedback
